import Mathlib

/-! Verification development for the `mjrl-modified` network and logging
utilities (`mjrl/utils/fc_network.py` and `mjrl/utils/logger.py`).

Tensor entries are modeled as exact rationals.  Elementwise arithmetic is
modeled exactly; the one place where IEEE-754 single-precision rounding is
semantically significant -- the epsilon fold `in_scale + 1e-8` inside
`FCNetwork.forward`, whose float32 value decides whether the default boundary
transform is an identity -- is modeled faithfully by the rounding function
`fl` below, as is the `np.float32` conversion in `set_transformations`.
External `torch` primitives (`torch.tanh`, `torch.relu`, `nn.BatchNorm1d`,
`nn.Dropout`) are abstract parameters bundled in the `Torch` structure:
the repository treats them as an external differentiable-tensor substrate. -/

/-- Round a rational to the nearest IEEE-754 binary32 value (round half up,
normal range; overflow and subnormals do not occur at the values used here). -/
def fl (q : ℚ) : ℚ :=
  if q = 0 then 0
  else
    ((round (q * (2 : ℚ) ^ ((23 : ℤ) - Int.log 2 |q|)) : ℤ) : ℚ) *
      (2 : ℚ) ^ (Int.log 2 |q| - (23 : ℤ))

/-- The float32 value of the Python literal `1e-8` as it participates in the
float32 addition `self.in_scale + 1e-8`. -/
def eps32 : ℚ := fl (1 / 100000000)

theorem log_two_inv_1e8 : Int.log 2 ((1 : ℚ) / 100000000) = -27 := by
  have hr : (0 : ℚ) < 1 / 100000000 := by norm_num
  apply le_antisymm
  · have h := (Int.lt_zpow_iff_log_lt (b := 2) (by norm_num) hr (x := -26)).mp
      (show (1 : ℚ) / 100000000 < (2 : ℚ) ^ (-26 : ℤ) by norm_num)
    omega
  · exact (Int.zpow_le_iff_le_log (b := 2) (by norm_num) hr (x := -27)).mp
      (show (2 : ℚ) ^ (-27 : ℤ) ≤ (1 : ℚ) / 100000000 by norm_num)

theorem eps32_val : eps32 = 11258999 / 1125899906842624 := by
  rw [eps32, fl]
  rw [if_neg (by norm_num)]
  rw [show |(1 : ℚ) / 100000000| = 1 / 100000000 by norm_num]
  rw [log_two_inv_1e8]
  rw [show ((23 : ℤ) - (-27)) = (50 : ℤ) by norm_num]
  rw [show ((-27 : ℤ) - 23) = (-50 : ℤ) by norm_num]
  rw [show ((1 : ℚ) / 100000000) * (2 : ℚ) ^ (50 : ℤ) = 4398046511104 / 390625 by
    norm_num]
  rw [show round ((4398046511104 : ℚ) / 390625) = 11258999 by
    rw [round_eq, Int.floor_eq_iff]; norm_num]
  norm_num

theorem fl_one_add_eps32 : fl (1 + eps32) = 1 := by
  rw [eps32_val]
  rw [show (1 : ℚ) + 11258999 / 1125899906842624 =
    1125899918101623 / 1125899906842624 by norm_num]
  rw [fl, if_neg (by norm_num)]
  rw [show |(1125899918101623 : ℚ) / 1125899906842624| =
    1125899918101623 / 1125899906842624 by norm_num]
  have hlog : Int.log 2 ((1125899918101623 : ℚ) / 1125899906842624) = 0 := by
    have hr : (0 : ℚ) < 1125899918101623 / 1125899906842624 := by norm_num
    apply le_antisymm
    · have h := (Int.lt_zpow_iff_log_lt (b := 2) (by norm_num) hr (x := 1)).mp
        (show (1125899918101623 : ℚ) / 1125899906842624 < (2 : ℚ) ^ (1 : ℤ) by
          norm_num)
      omega
    · exact (Int.zpow_le_iff_le_log (b := 2) (by norm_num) hr (x := 0)).mp
        (show (2 : ℚ) ^ (0 : ℤ) ≤ (1125899918101623 : ℚ) / 1125899906842624 by
          norm_num)
  rw [hlog]
  rw [show ((23 : ℤ) - 0) = (23 : ℤ) by norm_num]
  rw [show ((0 : ℤ) - 23) = (-23 : ℤ) by norm_num]
  rw [show ((1125899918101623 : ℚ) / 1125899906842624) * (2 : ℚ) ^ (23 : ℤ) =
    1125899918101623 / 134217728 by norm_num]
  rw [show round ((1125899918101623 : ℚ) / 134217728) = 8388608 by
    rw [round_eq, Int.floor_eq_iff]; norm_num]
  norm_num

/-- Compute devices.  The source code only ever distinguishes CPU from CUDA
(`x.is_cuda`, the literal `'cpu'`, and a caller-supplied target device). -/
inductive Device
  | cpu
  | cuda
deriving DecidableEq

/-- Entries of a 1-D tensor. -/
abbrev Vec := List ℚ

/-- A 1-D tensor: the four boundary buffers of `FCNetwork`. -/
structure TVec where
  device : Device
  data : Vec
deriving DecidableEq

/-- A 2-D tensor: a batch of rows flowing through `forward`. -/
structure TMat where
  device : Device
  rows : List Vec
deriving DecidableEq

def TVec.toDevice (t : TVec) (d : Device) : TVec := { t with device := d }

def TMat.toDevice (t : TMat) (d : Device) : TMat := { t with device := d }

/-- The external `torch` substrate: the two activation callables referenced by
`torch.relu if nonlinearity == 'relu' else torch.tanh`, the batch-norm layer
semantics (`nn.BatchNorm1d(num_features)` applied to a whole batch, running
statistics abstracted into the function), and the dropout layer semantics
(`nn.Dropout(p)` applied to a whole tensor, stochasticity abstracted). -/
structure Torch where
  relu : ℚ → ℚ
  tanh : ℚ → ℚ
  batchnorm : Nat → List Vec → List Vec
  dropoutRun : ℚ → List Vec → List Vec

/-- Which torch activation callable a network stores in `self.nonlinearity`. -/
inductive Activation
  | relu
  | tanh
deriving DecidableEq

/-- `torch.relu if nonlinearity == 'relu' else torch.tanh`
(lines 25 and 95 of `fc_network.py`). -/
def resolveNonlinearity (s : String) : Activation :=
  if s = "relu" then Activation.relu else Activation.tanh

def applyActivation (T : Torch) : Activation → ℚ → ℚ
  | Activation.relu => T.relu
  | Activation.tanh => T.tanh

/-- An `nn.Linear` affine layer: weight rows (`out_features × in_features`),
a bias vector, the device its parameters live on, and its registered forward
hooks (`register_forward_hook` appends one observer per call, in order). -/
structure Linear where
  device : Device
  weight : List Vec
  bias : Vec
  hooks : List String
deriving DecidableEq

def dot (a b : Vec) : ℚ := (List.zipWith (· * ·) a b).sum

/-- Value-level action of an affine layer on one row. -/
def Linear.applyVec (l : Linear) (v : Vec) : Vec :=
  List.zipWith (fun row b => dot row v + b) l.weight l.bias

/-- Device-checked action on a batch; torch raises on a cross-device input. -/
def Linear.applyT (l : Linear) (t : TMat) : Option TMat :=
  if t.device = l.device then some ⟨l.device, t.rows.map l.applyVec⟩ else none

def Linear.toDev (l : Linear) (d : Device) : Linear := { l with device := d }

def Linear.register_forward_hook (l : Linear) (name : String) : Linear :=
  { l with hooks := l.hooks ++ [name] }

/-- `nn.Linear(in_features, out_features)` freshly constructed on the CPU with
substrate-initialized entries and no hooks. -/
def nnLinear (inF outF : Nat) (wInit : Nat → Nat → ℚ) (bInit : Nat → ℚ) : Linear :=
  ⟨Device.cpu, (List.range outF).map (fun r => (List.range inF).map (wInit r)),
    (List.range outF).map bInit, []⟩

/-- `nn.Linear(self.layer_sizes[i], self.layer_sizes[i+1]) for i in
range(len(self.layer_sizes) - 1)`: one affine layer per consecutive pair of
layer sizes.  `wInit`/`bInit` stand for the substrate's random initializer. -/
def buildLayers (wInit : Nat → Nat → Nat → ℚ) (bInit : Nat → Nat → ℚ) :
    Nat → List Nat → List Linear
  | i, s1 :: s2 :: rest =>
    nnLinear s1 s2 (wInit i) (bInit i) :: buildLayers wInit bInit (i+1) (s2 :: rest)
  | _, _ => []

/-- The state of a `FCNetwork` (`NormalizedMLP`).  The activation cache and the
`SummaryWriter` visualization sink are external I/O instrumentation and are not
modeled; `device` is the attribute first created by `FCNetwork.to`. -/
structure FCNetwork where
  obs_dim : Nat
  act_dim : Nat
  layer_sizes : List Nat
  fc_layers : List Linear
  nonlinearity : Activation
  in_shift : TVec
  in_scale : TVec
  out_shift : TVec
  out_scale : TVec
  device : Option Device
deriving DecidableEq

/-- Lines 30-38 of `fc_network.py`: each supplied vector is converted with
`np.float32` (modeled by `fl`) and stored as a CPU tensor; a missing vector
defaults to `torch.zeros`/`torch.ones` of the boundary width. -/
def FCNetwork.set_transformations (net : FCNetwork)
    (in_shift in_scale out_shift out_scale : Option Vec) : FCNetwork :=
  { net with
    in_shift := ⟨Device.cpu, match in_shift with
      | some v => v.map fl
      | none => List.replicate net.obs_dim 0⟩,
    in_scale := ⟨Device.cpu, match in_scale with
      | some v => v.map fl
      | none => List.replicate net.obs_dim 1⟩,
    out_shift := ⟨Device.cpu, match out_shift with
      | some v => v.map fl
      | none => List.replicate net.act_dim 0⟩,
    out_scale := ⟨Device.cpu, match out_scale with
      | some v => v.map fl
      | none => List.replicate net.act_dim 1⟩ }

/-- `FCNetwork.__init__`. -/
def mkFCNetwork (obs_dim act_dim : Nat) (hidden_sizes : List Nat)
    (nonlinearity : String)
    (in_shift in_scale out_shift out_scale : Option Vec) (log_dir : String)
    (wInit : Nat → Nat → Nat → ℚ) (bInit : Nat → Nat → ℚ) : FCNetwork :=
  let _ := log_dir
  let sizes := obs_dim :: (hidden_sizes ++ [act_dim])
  FCNetwork.set_transformations
    { obs_dim := obs_dim, act_dim := act_dim, layer_sizes := sizes,
      fc_layers := buildLayers wInit bInit 0 sizes,
      nonlinearity := resolveNonlinearity nonlinearity,
      in_shift := ⟨Device.cpu, []⟩, in_scale := ⟨Device.cpu, []⟩,
      out_shift := ⟨Device.cpu, []⟩, out_scale := ⟨Device.cpu, []⟩,
      device := none }
    in_shift in_scale out_shift out_scale

/-- An elementwise binary op between a batch and a broadcast 1-D tensor; torch
raises a device-mismatch error when the operands live on different devices. -/
def tBroadcast (f : ℚ → ℚ → ℚ) (a : TMat) (b : TVec) : Option TMat :=
  if a.device = b.device then
    some ⟨a.device, a.rows.map (fun r => List.zipWith f r b.data)⟩
  else none

/-- Value of `self.in_scale + 1e-8`: a float32 elementwise addition. -/
def denomVec (inScale : Vec) : Vec := inScale.map (fun s => fl (s + eps32))

def denomTVec (inScale : TVec) : TVec := ⟨inScale.device, denomVec inScale.data⟩

def nonlinRows (T : Torch) (nl : Activation) (m : List Vec) : List Vec :=
  m.map (fun r => r.map (applyActivation T nl))

/-- The hidden-layer loop `out = fc_layers[i](out); out = postprocess(out)`
over a batch, with torch device checks (`postprocess` is the nonlinearity for
`FCNetwork`, dropout-then-nonlinearity for `FCNetworkWithBatchNorm`). -/
def runHiddenG (g : List Vec → List Vec) : List Linear → TMat → Option TMat
  | [], t => some t
  | l :: ls, t =>
    match l.applyT t with
    | some u => runHiddenG g ls ⟨u.device, g u.rows⟩
    | none => none

/-- Lines 41-44 of `fc_network.py`:
`out = x.to('cpu') if x.is_cuda else x` -- the input relocation step. -/
def relocateInput (x : TMat) : TMat :=
  if x.device = Device.cuda then x.toDevice Device.cpu else x

/-- Lines 45-51 of `fc_network.py`: the body of `FCNetwork.forward` after the
input relocation (normalize, hidden layers with the nonlinearity, final layer,
denormalize). -/
def FCNetwork.forwardFrom (T : Torch) (net : FCNetwork) (t : TMat) : Option TMat := do
  let o1 ← tBroadcast (fun a b => a - b) t net.in_shift
  let o2 ← tBroadcast (fun a b => a / b) o1 (denomTVec net.in_scale)
  let o3 ← runHiddenG (nonlinRows T net.nonlinearity) net.fc_layers.dropLast o2
  let lst ← net.fc_layers.getLast?
  let o4 ← lst.applyT o3
  let o5 ← tBroadcast (fun a b => a * b) o4 net.out_scale
  tBroadcast (fun a b => a + b) o5 net.out_shift

/-- Lines 40-51 of `fc_network.py`. -/
def FCNetwork.forward (T : Torch) (net : FCNetwork) (x : TMat) : Option TMat :=
  net.forwardFrom T (relocateInput x)

/-- `for i, layer in enumerate(self.fc_layers):
layer.register_forward_hook(self.hook_fn(f'fc_layer_{i}'))`. -/
def registerHooksAux : Nat → List Linear → List Linear
  | _, [] => []
  | i, l :: ls =>
    l.register_forward_hook ("fc_layer_" ++ toString i) :: registerHooksAux (i+1) ls

def FCNetwork.register_hooks (net : FCNetwork) : FCNetwork :=
  { net with fc_layers := registerHooksAux 0 net.fc_layers }

/-- Lines 66-74 of `fc_network.py`: record the device, relocate the four
boundary buffers, then `super().to(device)` relocates the layer parameters. -/
def FCNetwork.to (net : FCNetwork) (d : Device) : FCNetwork :=
  { net with
    device := some d,
    in_shift := net.in_shift.toDevice d,
    in_scale := net.in_scale.toDevice d,
    out_shift := net.out_shift.toDevice d,
    out_scale := net.out_scale.toDevice d,
    fc_layers := net.fc_layers.map (fun l => l.toDev d) }

/-- `(x - in_shift) / (in_scale + 1e-8)`, rowwise over a batch. -/
def normalizeRows (inShift inScale : Vec) (m : List Vec) : List Vec :=
  m.map (fun r =>
    List.zipWith (· / ·) (List.zipWith (· - ·) r inShift) (denomVec inScale))

/-- `out * out_scale + out_shift`, rowwise over a batch. -/
def denormalizeRows (outScale outShift : Vec) (m : List Vec) : List Vec :=
  m.map (fun r =>
    List.zipWith (· + ·) (List.zipWith (· * ·) r outScale) outShift)

/-- Every hidden layer followed by the postprocessing `g`, then the final
affine layer alone. -/
def stackRows (g : List Vec → List Vec) (layers : List Linear) (m : List Vec) :
    List Vec :=
  match layers.getLast? with
  | none => m
  | some lst =>
    (layers.dropLast.foldl (fun acc l => g (acc.map l.applyVec)) m).map lst.applyVec

theorem runHiddenG_ok (g : List Vec → List Vec) (d : Device) (ls : List Linear) :
    ∀ (t : TMat), t.device = d → (∀ l ∈ ls, l.device = d) →
      runHiddenG g ls t =
        some ⟨d, ls.foldl (fun acc l => g (acc.map l.applyVec)) t.rows⟩ := by
  induction ls with
  | nil =>
    intro t ht _
    cases t
    simp only [runHiddenG, List.foldl_nil]
    simp_all
  | cons l ls ih =>
    intro t ht hmem
    have hl : l.device = d := hmem l (List.mem_cons_self l ls)
    rw [runHiddenG, Linear.applyT, if_pos (by rw [ht, hl])]
    simp only []
    rw [ih ⟨l.device, g (t.rows.map l.applyVec)⟩ hl
      (fun l' h' => hmem l' (List.mem_cons_of_mem l h'))]
    simp [List.foldl_cons]

/-- All tensors owned by the network reside on the CPU (the state in which a
freshly constructed `FCNetwork` starts). -/
def FCNetwork.onCPU (net : FCNetwork) : Prop :=
  net.in_shift.device = Device.cpu ∧ net.in_scale.device = Device.cpu ∧
  net.out_shift.device = Device.cpu ∧ net.out_scale.device = Device.cpu ∧
  ∀ l ∈ net.fc_layers, l.device = Device.cpu

instance (net : FCNetwork) : Decidable net.onCPU := by
  unfold FCNetwork.onCPU
  infer_instance

theorem forward_pipeline (T : Torch) (net : FCNetwork) (x : TMat)
    (hcpu : net.onCPU) (hx : x.device = Device.cpu) (hne : net.fc_layers ≠ []) :
    net.forward T x = some ⟨Device.cpu,
      denormalizeRows net.out_scale.data net.out_shift.data
        (stackRows (nonlinRows T net.nonlinearity) net.fc_layers
          (normalizeRows net.in_shift.data net.in_scale.data x.rows))⟩ := by
  obtain ⟨h1, h2, h3, h4, h5⟩ := hcpu
  have hrel : relocateInput x = x := by
    rw [relocateInput, hx]
    simp
  rw [FCNetwork.forward, hrel, FCNetwork.forwardFrom]
  have e1 : tBroadcast (fun a b => a - b) x net.in_shift =
      some ⟨Device.cpu, x.rows.map (fun r => List.zipWith (· - ·) r net.in_shift.data)⟩ := by
    rw [tBroadcast, if_pos (by rw [hx, h1]), hx]
  have e2 : tBroadcast (fun a b => a / b)
      ⟨Device.cpu, x.rows.map (fun r => List.zipWith (· - ·) r net.in_shift.data)⟩
      (denomTVec net.in_scale) =
      some ⟨Device.cpu, normalizeRows net.in_shift.data net.in_scale.data x.rows⟩ := by
    rw [tBroadcast, denomTVec]
    rw [if_pos (by rw [h2])]
    simp [normalizeRows, List.map_map]
  rw [e1]
  simp only [Option.bind_eq_bind, Option.some_bind]
  rw [e2]
  simp only [Option.bind_eq_bind, Option.some_bind]
  rw [runHiddenG_ok (nonlinRows T net.nonlinearity) Device.cpu net.fc_layers.dropLast
    ⟨Device.cpu, normalizeRows net.in_shift.data net.in_scale.data x.rows⟩ rfl
    (fun l h => h5 l (List.dropLast_subset _ h))]
  simp only [Option.bind_eq_bind, Option.some_bind]
  have hgl : net.fc_layers.getLast? = some (net.fc_layers.getLast hne) :=
    List.getLast?_eq_getLast net.fc_layers hne
  rw [hgl]
  simp only [Option.bind_eq_bind, Option.some_bind]
  have hlast : (net.fc_layers.getLast hne).device = Device.cpu :=
    h5 _ (List.getLast_mem hne)
  rw [Linear.applyT, if_pos (by rw [hlast]), hlast]
  simp only [Option.bind_eq_bind, Option.some_bind]
  have e5 : tBroadcast (fun a b => a * b)
      ⟨Device.cpu, ((net.fc_layers.dropLast.foldl
        (fun acc l => nonlinRows T net.nonlinearity (acc.map l.applyVec))
        (normalizeRows net.in_shift.data net.in_scale.data x.rows)).map
          (net.fc_layers.getLast hne).applyVec)⟩ net.out_scale =
      some ⟨Device.cpu, ((net.fc_layers.dropLast.foldl
        (fun acc l => nonlinRows T net.nonlinearity (acc.map l.applyVec))
        (normalizeRows net.in_shift.data net.in_scale.data x.rows)).map
          (net.fc_layers.getLast hne).applyVec).map
        (fun r => List.zipWith (· * ·) r net.out_scale.data)⟩ := by
    rw [tBroadcast, if_pos (by rw [h4])]
  rw [e5]
  simp only [Option.bind_eq_bind, Option.some_bind]
  rw [tBroadcast, if_pos (by rw [h3])]
  rw [stackRows, hgl]
  simp only [denormalizeRows, List.map_map]
  rfl

/-- C1: For every FCNetwork (NormalizedMLP) with boundary vectors in_shift,
in_scale, out_shift, out_scale and every input batch x of width obs_dim,
forward(x) equals the composition: normalize x to `(x - in_shift) /
(in_scale + 1e-8)`, apply each hidden affine layer followed by the
nonlinearity, apply the final affine layer with no trailing nonlinearity, and
denormalize the result as `out * out_scale + out_shift`. -/
theorem claim_C1 (T : Torch) (net : FCNetwork) (x : TMat)
    (hcpu : net.onCPU) (hx : x.device = Device.cpu)
    (hw : ∀ r ∈ x.rows, r.length = net.obs_dim) (hne : net.fc_layers ≠ []) :
    net.forward T x = some ⟨Device.cpu,
      denormalizeRows net.out_scale.data net.out_shift.data
        (stackRows (nonlinRows T net.nonlinearity) net.fc_layers
          (normalizeRows net.in_shift.data net.in_scale.data x.rows))⟩ := by
  have _ := hw
  exact forward_pipeline T net x hcpu hx hne

def netC1 : FCNetwork :=
  mkFCNetwork 1 1 [] "tanh" none none none none "runs/activations"
    (fun _ _ _ => 2) (fun _ _ => 3)

def xC1 : TMat := ⟨Device.cpu, [[5]]⟩

def torchC1 : Torch := ⟨fun q => max 0 q, fun _ => 0, fun _ m => m, fun _ m => m⟩

theorem claim_C1_witness :
    (netC1.onCPU ∧ xC1.device = Device.cpu ∧
      (∀ r ∈ xC1.rows, r.length = netC1.obs_dim) ∧ netC1.fc_layers ≠ []) ∧
    netC1.forward torchC1 xC1 = some ⟨Device.cpu,
      denormalizeRows netC1.out_scale.data netC1.out_shift.data
        (stackRows (nonlinRows torchC1 netC1.nonlinearity) netC1.fc_layers
          (normalizeRows netC1.in_shift.data netC1.in_scale.data xC1.rows))⟩ :=
  ⟨⟨by decide, rfl, by decide, by decide⟩,
    claim_C1 torchC1 netC1 xC1 (by decide) rfl (by decide) (by decide)⟩

theorem zipWith_sub_replicate_zero (v : Vec) :
    List.zipWith (· - ·) v (List.replicate v.length 0) = v := by
  induction v with
  | nil => rfl
  | cons a t ih => simp [List.replicate, ih]

theorem zipWith_div_replicate_one (v : Vec) :
    List.zipWith (· / ·) v (List.replicate v.length 1) = v := by
  induction v with
  | nil => rfl
  | cons a t ih => simp [List.replicate, ih]

theorem zipWith_mul_replicate_one (v : Vec) :
    List.zipWith (· * ·) v (List.replicate v.length 1) = v := by
  induction v with
  | nil => rfl
  | cons a t ih => simp [List.replicate, ih]

theorem zipWith_add_replicate_zero (v : Vec) :
    List.zipWith (· + ·) v (List.replicate v.length 0) = v := by
  induction v with
  | nil => rfl
  | cons a t ih => simp [List.replicate, ih]

/-- The float32 fold of the default scale: `1 + 1e-8` rounds back to `1` in
single precision, so the default input denominator is exactly one. -/
theorem denomVec_replicate_one (n : Nat) :
    denomVec (List.replicate n 1) = List.replicate n 1 := by
  rw [denomVec, List.map_replicate, fl_one_add_eps32]

theorem map_eq_self_of (m : List Vec) (f : Vec → Vec) (h : ∀ r ∈ m, f r = r) :
    m.map f = m := by
  induction m with
  | nil => rfl
  | cons a t ih =>
    simp only [List.map_cons, h a (List.mem_cons_self a t),
      ih (fun r hr => h r (List.mem_cons_of_mem a hr))]

theorem normalizeRows_default (n : Nat) (m : List Vec)
    (h : ∀ r ∈ m, r.length = n) :
    normalizeRows (List.replicate n 0) (List.replicate n 1) m = m := by
  rw [normalizeRows]
  apply map_eq_self_of
  intro r hr
  rw [denomVec_replicate_one, ← h r hr, zipWith_sub_replicate_zero,
    zipWith_div_replicate_one]

theorem denormalizeRows_default (n : Nat) (m : List Vec)
    (h : ∀ r ∈ m, r.length = n) :
    denormalizeRows (List.replicate n 1) (List.replicate n 0) m = m := by
  rw [denormalizeRows]
  apply map_eq_self_of
  intro r hr
  rw [← h r hr, zipWith_mul_replicate_one, zipWith_add_replicate_zero]

theorem buildLayers_device (w : Nat → Nat → Nat → ℚ) (b : Nat → Nat → ℚ) :
    ∀ (sizes : List Nat) (i : Nat) (l : Linear),
      l ∈ buildLayers w b i sizes → l.device = Device.cpu := by
  intro sizes
  induction sizes with
  | nil => intro i l hl; simp [buildLayers] at hl
  | cons s1 rest ih =>
    intro i l hl
    match rest with
    | [] => simp [buildLayers] at hl
    | s2 :: rest' =>
      rw [buildLayers] at hl
      rcases List.mem_cons.mp hl with h | h
      · rw [h]; rfl
      · exact ih (i + 1) l h

theorem buildLayers_ne_nil (w : Nat → Nat → Nat → ℚ) (b : Nat → Nat → ℚ)
    (i s1 s2 : Nat) (rest : List Nat) :
    buildLayers w b i (s1 :: s2 :: rest) ≠ [] := by
  rw [buildLayers]
  simp

theorem buildLayers_getLast (w : Nat → Nat → Nat → ℚ) (b : Nat → Nat → ℚ) :
    ∀ (rest : List Nat) (s1 i a : Nat), rest.getLast? = some a →
      ∃ lst, (buildLayers w b i (s1 :: rest)).getLast? = some lst ∧
        lst.weight.length = a ∧ lst.bias.length = a := by
  intro rest
  induction rest with
  | nil => intro s1 i a ha; simp at ha
  | cons s2 rest' ih =>
    intro s1 i a ha
    match rest' with
    | [] =>
      simp at ha
      refine ⟨nnLinear s1 s2 (w i) (b i), rfl, ?_, ?_⟩
      · rw [ha, nnLinear]
        simp
      · rw [ha, nnLinear]
        simp
    | s3 :: rest'' =>
      have ha' : (s3 :: rest'').getLast? = some a := by
        rwa [List.getLast?_cons_cons] at ha
      obtain ⟨lst, h1, h2, h3⟩ := ih s2 (i + 1) a ha'
      refine ⟨lst, ?_, h2, h3⟩
      have hstep : buildLayers w b i (s1 :: s2 :: s3 :: rest'') =
          nnLinear s1 s2 (w i) (b i) :: buildLayers w b (i + 1) (s2 :: s3 :: rest'') :=
        rfl
      rw [hstep]
      cases hb : buildLayers w b (i + 1) (s2 :: s3 :: rest'') with
      | nil => exact absurd hb (buildLayers_ne_nil w b (i + 1) s2 s3 rest'')
      | cons y ys =>
        rw [List.getLast?_cons_cons, ← hb]
        exact h1

theorem Linear.applyVec_length (l : Linear) (v : Vec) :
    (l.applyVec v).length = min l.weight.length l.bias.length := by
  rw [Linear.applyVec, List.length_zipWith]

/-- The spec's "plain MLP with the same weights and nonlinearity applied
directly to x": each hidden affine layer followed by the nonlinearity, then
the final affine layer, with no boundary transform at either end. -/
def plainMLP (T : Torch) (nl : Activation) (layers : List Linear)
    (m : List Vec) : List Vec :=
  match layers.getLast? with
  | none => m
  | some lst =>
    (layers.dropLast.foldl (fun acc l => nonlinRows T nl (acc.map l.applyVec)) m).map
      lst.applyVec

theorem plainMLP_eq_stackRows (T : Torch) (nl : Activation) (layers : List Linear)
    (m : List Vec) : plainMLP T nl layers m = stackRows (nonlinRows T nl) layers m :=
  rfl

/-- C4: For every FCNetwork constructed with no normalization vectors (so the
defaults in_shift=out_shift=0 and in_scale=out_scale=1 are installed) and every
input x, forward(x) yields exactly the same output as a plain MLP with the same
weights and nonlinearity applied directly to x: the default boundary transform
is a true no-op (in float32, `1 + 1e-8` rounds back to exactly `1`). -/
theorem claim_C4 (T : Torch) (obs act : Nat) (hidden : List Nat) (nl : String)
    (log_dir : String) (w : Nat → Nat → Nat → ℚ) (b : Nat → Nat → ℚ) (x : TMat)
    (hx : x.device = Device.cpu) (hw : ∀ r ∈ x.rows, r.length = obs) :
    (mkFCNetwork obs act hidden nl none none none none log_dir w b).forward T x =
      some ⟨Device.cpu, plainMLP T (resolveNonlinearity nl)
        (mkFCNetwork obs act hidden nl none none none none log_dir w b).fc_layers
        x.rows⟩ := by
  have honcpu : (mkFCNetwork obs act hidden nl none none none none log_dir w b).onCPU := by
    refine ⟨rfl, rfl, rfl, rfl, ?_⟩
    intro l hl
    exact buildLayers_device w b (obs :: (hidden ++ [act])) 0 l hl
  have hne : (mkFCNetwork obs act hidden nl none none none none log_dir w b).fc_layers ≠ [] := by
    cases hidden with
    | nil => exact buildLayers_ne_nil w b 0 obs act []
    | cons h1 hs => exact buildLayers_ne_nil w b 0 obs h1 (hs ++ [act])
  rw [forward_pipeline T _ x honcpu hx hne]
  have e1 : (mkFCNetwork obs act hidden nl none none none none log_dir w b).in_shift.data =
      List.replicate obs 0 := rfl
  have e2 : (mkFCNetwork obs act hidden nl none none none none log_dir w b).in_scale.data =
      List.replicate obs 1 := rfl
  have e3 : (mkFCNetwork obs act hidden nl none none none none log_dir w b).out_shift.data =
      List.replicate act 0 := rfl
  have e4 : (mkFCNetwork obs act hidden nl none none none none log_dir w b).out_scale.data =
      List.replicate act 1 := rfl
  have e5 : (mkFCNetwork obs act hidden nl none none none none log_dir w b).nonlinearity =
      resolveNonlinearity nl := rfl
  have e6 : (mkFCNetwork obs act hidden nl none none none none log_dir w b).fc_layers =
      buildLayers w b 0 (obs :: (hidden ++ [act])) := rfl
  rw [e1, e2, e3, e4, e5, e6]
  rw [normalizeRows_default obs x.rows hw]
  obtain ⟨lst, hlst, hwl, hbl⟩ := buildLayers_getLast w b (hidden ++ [act]) obs 0 act
    (by rw [List.getLast?_concat])
  have hshape : ∀ r ∈ stackRows (nonlinRows T (resolveNonlinearity nl))
      (buildLayers w b 0 (obs :: (hidden ++ [act]))) x.rows, r.length = act := by
    intro r hr
    rw [stackRows, hlst] at hr
    obtain ⟨v, hv, rfl⟩ := List.mem_map.mp hr
    rw [Linear.applyVec_length, hwl, hbl]
    simp
  rw [denormalizeRows_default act _ hshape]
  rw [plainMLP_eq_stackRows]

def torchC4 : Torch := ⟨fun q => max 0 q, fun q => q, fun _ m => m, fun _ m => m⟩

def netC4 : FCNetwork :=
  mkFCNetwork 1 1 [] "tanh" none none none none "runs/activations"
    (fun _ _ _ => 2) (fun _ _ => 3)

def xC4 : TMat := ⟨Device.cpu, [[4]]⟩

theorem claim_C4_witness :
    (xC4.device = Device.cpu ∧ ∀ r ∈ xC4.rows, r.length = 1) ∧
    netC4.forward torchC4 xC4 = some ⟨Device.cpu,
      plainMLP torchC4 (resolveNonlinearity "tanh") netC4.fc_layers xC4.rows⟩ :=
  ⟨⟨rfl, by decide⟩,
    claim_C4 torchC4 1 1 [] "tanh" "runs/activations" (fun _ _ _ => 2)
      (fun _ _ => 3) xC4 rfl (by decide)⟩

/-- All tensors owned by the network (the four boundary buffers and every
layer's parameters) report device `d`. -/
def FCNetwork.ownedOnB (net : FCNetwork) (d : Device) : Bool :=
  (net.in_shift.device == d) && (net.in_scale.device == d) &&
  (net.out_shift.device == d) && (net.out_scale.device == d) &&
  net.fc_layers.all (fun l => l.device == d)

/-- C2 (the device-consistency claim, against which the code slips): after
`to(d)` every owned tensor does reside on `d`, but a forward pass called
immediately after `to('cuda')` always raises a device-mismatch error (modeled
as `none`), because `forward` unconditionally relocates the input to the CPU
and then subtracts the cuda-resident `in_shift`. -/
theorem claim_C2 (net : FCNetwork) (d : Device) (T : Torch) (x : TMat) :
    (net.to d).ownedOnB d = true ∧ (net.to Device.cuda).forward T x = none := by
  constructor
  · rw [FCNetwork.ownedOnB, FCNetwork.to]
    simp [TVec.toDevice, Linear.toDev, List.all_eq_true, List.mem_map]
  · rw [FCNetwork.forward, FCNetwork.forwardFrom]
    have hdev : (relocateInput x).device = Device.cpu := by
      rw [relocateInput]
      by_cases hx : x.device = Device.cuda
      · rw [if_pos hx]
        rfl
      · rw [if_neg hx]
        cases hd : x.device with
        | cpu => rfl
        | cuda => exact absurd hd hx
    have e : tBroadcast (fun a b => a - b) (relocateInput x)
        (net.to Device.cuda).in_shift = none := by
      rw [tBroadcast, if_neg]
      rw [hdev]
      rw [show (net.to Device.cuda).in_shift.device = Device.cuda from rfl]
      simp
    rw [e]
    rfl

def netC3 : FCNetwork :=
  (mkFCNetwork 2 1 [] "tanh" none none none none "runs/activations"
    (fun _ _ _ => 1) (fun _ _ => 0)).to Device.cuda

def xC3 : TMat := ⟨Device.cuda, [[1, 1]]⟩

/-- C3 counterexample: after moving the network to CUDA, the boundary buffers
reside on CUDA, yet `forward` relocates the input to the CPU -- not to the
device where the boundary buffers reside, refuting the claim as stated. -/
theorem claim_C3_counterexample :
    ¬ ((relocateInput xC3).device = netC3.in_shift.device) := by decide

/-- C3 amended: `forward` relocates the input to the CPU device,
unconditionally, before applying the `(x - in_shift) / (in_scale + 1e-8)`
normalization (this coincides with the buffer device only while the buffers
reside on the CPU). -/
theorem claim_C3_amended (T : Torch) (net : FCNetwork) (x : TMat) :
    (relocateInput x).device = Device.cpu ∧
    net.forward T x = net.forwardFrom T (relocateInput x) := by
  constructor
  · rw [relocateInput]
    by_cases hx : x.device = Device.cuda
    · rw [if_pos hx]
      rfl
    · rw [if_neg hx]
      cases hd : x.device with
      | cpu => rfl
      | cuda => exact absurd hd hx
  · rfl

/-- The `nn.BatchNorm1d(num_features=obs_dim)` module: its learned parameters
and running statistics live on `device`; its numeric behavior (training-mode
statistics update vs eval-mode frozen statistics) is the substrate function
`Torch.batchnorm`. -/
structure BatchNormMod where
  device : Device
  num_features : Nat
deriving DecidableEq

def BatchNormMod.applyT (T : Torch) (bn : BatchNormMod) (t : TMat) : Option TMat :=
  if t.device = bn.device then some ⟨bn.device, T.batchnorm bn.num_features t.rows⟩
  else none

/-- The state of a `FCNetworkWithBatchNorm`.  As for `FCNetwork`, the
activation cache and the `SummaryWriter` sink are unmodeled I/O. -/
structure FCNetworkWithBatchNorm where
  obs_dim : Nat
  act_dim : Nat
  layer_sizes : List Nat
  device : Device
  fc_layers : List Linear
  nonlinearity : Activation
  input_batchnorm : BatchNormMod
  dropout_p : ℚ
deriving DecidableEq

/-- `FCNetworkWithBatchNorm.__init__` (lines 79-100 of `fc_network.py`): the
trailing `*args` and `**kwargs` are accepted and never read. -/
def mkFCNetworkWithBatchNorm (obs_dim act_dim : Nat) (hidden_sizes : List Nat)
    (nonlinearity : String) (dropout : ℚ) (log_dir : String)
    (wInit : Nat → Nat → Nat → ℚ) (bInit : Nat → Nat → ℚ)
    (args : List Vec) (kwargs : List (String × Vec)) : FCNetworkWithBatchNorm :=
  let _ := log_dir
  let _ := args
  let _ := kwargs
  let sizes := obs_dim :: (hidden_sizes ++ [act_dim])
  { obs_dim := obs_dim, act_dim := act_dim, layer_sizes := sizes,
    device := Device.cpu,
    fc_layers := buildLayers wInit bInit 0 sizes,
    nonlinearity := resolveNonlinearity nonlinearity,
    input_batchnorm := ⟨Device.cpu, obs_dim⟩,
    dropout_p := dropout }

/-- Lines 102-110 of `fc_network.py`: `out = x.to(self.device)`, input batch
norm, then per hidden layer affine, dropout, nonlinearity, in that order, and
the final affine layer alone. -/
def FCNetworkWithBatchNorm.forward (T : Torch) (net : FCNetworkWithBatchNorm)
    (x : TMat) : Option TMat := do
  let o1 ← net.input_batchnorm.applyT T (x.toDevice net.device)
  let o2 ← runHiddenG
    (fun m => nonlinRows T net.nonlinearity (T.dropoutRun net.dropout_p m))
    net.fc_layers.dropLast o1
  let lst ← net.fc_layers.getLast?
  lst.applyT o2

def FCNetworkWithBatchNorm.register_hooks (net : FCNetworkWithBatchNorm) :
    FCNetworkWithBatchNorm :=
  { net with fc_layers := registerHooksAux 0 net.fc_layers }

/-- Lines 126-128: record the device and relocate all parameters. -/
def FCNetworkWithBatchNorm.to (net : FCNetworkWithBatchNorm) (d : Device) :
    FCNetworkWithBatchNorm :=
  { net with
    device := d,
    input_batchnorm := { net.input_batchnorm with device := d },
    fc_layers := net.fc_layers.map (fun l => l.toDev d) }

/-- Lines 129-130: `set_transformations(self, *args, **kwargs): pass`. -/
def FCNetworkWithBatchNorm.set_transformations (net : FCNetworkWithBatchNorm)
    (args : List Vec) (kwargs : List (String × Vec)) : FCNetworkWithBatchNorm :=
  let _ := args
  let _ := kwargs
  net

/-- The composition stated by C5: input batch normalization, then each hidden
affine layer followed by dropout and then the nonlinearity, in that order,
then the final affine layer with no dropout, no nonlinearity and no output
denormalization. -/
def bnPipeline (T : Torch) (nl : Activation) (p : ℚ) (nf : Nat)
    (layers : List Linear) (m : List Vec) : List Vec :=
  stackRows (fun v => nonlinRows T nl (T.dropoutRun p v)) layers
    (T.batchnorm nf m)

/-- Batch-norm module and layer parameters agree with the recorded device (the
state every `FCNetworkWithBatchNorm` is constructed in and that `to`
preserves). -/
def FCNetworkWithBatchNorm.consistent (net : FCNetworkWithBatchNorm) : Prop :=
  net.input_batchnorm.device = net.device ∧
  ∀ l ∈ net.fc_layers, l.device = net.device

instance (net : FCNetworkWithBatchNorm) : Decidable net.consistent := by
  unfold FCNetworkWithBatchNorm.consistent
  infer_instance

/-- C5: For every FCNetworkWithBatchNorm and every input batch x, forward(x)
relocates x to the network's current device, applies the input
batch-normalization layer, then for each hidden layer applies the affine
transform, then dropout, then the nonlinearity, in that order, and applies the
final affine layer with no dropout, no nonlinearity, and no output
denormalization. -/
theorem claim_C5 (T : Torch) (net : FCNetworkWithBatchNorm) (x : TMat)
    (hc : net.consistent) (hne : net.fc_layers ≠ []) :
    net.forward T x = some ⟨net.device,
      bnPipeline T net.nonlinearity net.dropout_p
        net.input_batchnorm.num_features net.fc_layers x.rows⟩ := by
  obtain ⟨hbn, hl⟩ := hc
  rw [FCNetworkWithBatchNorm.forward]
  have hcond : (x.toDevice net.device).device = net.input_batchnorm.device := by
    rw [hbn]
    rfl
  have e1 : net.input_batchnorm.applyT T (x.toDevice net.device) =
      some ⟨net.device, T.batchnorm net.input_batchnorm.num_features x.rows⟩ := by
    rw [BatchNormMod.applyT, if_pos hcond, hbn]
    rfl
  rw [e1]
  simp only [Option.bind_eq_bind, Option.some_bind]
  rw [runHiddenG_ok
    (fun m => nonlinRows T net.nonlinearity (T.dropoutRun net.dropout_p m))
    net.device net.fc_layers.dropLast
    ⟨net.device, T.batchnorm net.input_batchnorm.num_features x.rows⟩ rfl
    (fun l h => hl l (List.dropLast_subset _ h))]
  simp only [Option.bind_eq_bind, Option.some_bind]
  have hgl : net.fc_layers.getLast? = some (net.fc_layers.getLast hne) :=
    List.getLast?_eq_getLast net.fc_layers hne
  rw [hgl]
  simp only [Option.bind_eq_bind, Option.some_bind]
  have hlast : (net.fc_layers.getLast hne).device = net.device :=
    hl _ (List.getLast_mem hne)
  rw [Linear.applyT, if_pos (by rw [hlast]), hlast]
  rw [bnPipeline, stackRows, hgl]

def torchC5 : Torch := ⟨fun q => max 0 q, fun q => q, fun _ m => m, fun _ m => m⟩

def netC5 : FCNetworkWithBatchNorm :=
  mkFCNetworkWithBatchNorm 1 1 [] "relu" 0 "runs/activations_with_batchnorm"
    (fun _ _ _ => 2) (fun _ _ => 1) [] []

def xC5 : TMat := ⟨Device.cuda, [[3]]⟩

theorem claim_C5_witness :
    (netC5.consistent ∧ netC5.fc_layers ≠ []) ∧
    netC5.forward torchC5 xC5 = some ⟨netC5.device,
      bnPipeline torchC5 netC5.nonlinearity netC5.dropout_p
        netC5.input_batchnorm.num_features netC5.fc_layers xC5.rows⟩ :=
  ⟨⟨by decide, by decide⟩, claim_C5 torchC5 netC5 xC5 (by decide) (by decide)⟩

theorem registerHooksAux_twice :
    ∀ (ls : List Linear) (i j : Nat) (l' : Linear),
      (∀ l ∈ ls, l.hooks = []) →
      l' ∈ registerHooksAux i (registerHooksAux j ls) → l'.hooks.length = 2 := by
  intro ls
  induction ls with
  | nil =>
    intro i j l' h hmem
    simp [registerHooksAux] at hmem
  | cons a t ih =>
    intro i j l' h hmem
    rw [registerHooksAux, registerHooksAux] at hmem
    rcases List.mem_cons.mp hmem with he | ht
    · rw [he, Linear.register_forward_hook, Linear.register_forward_hook]
      simp [h a (List.mem_cons_self a t)]
    · exact ih (i + 1) (j + 1) l' (fun l hl => h l (List.mem_cons_of_mem a hl)) ht

def netC8 : FCNetwork :=
  mkFCNetwork 1 1 [] "tanh" none none none none "runs/activations"
    (fun _ _ _ => 0) (fun _ _ => 0)

/-- C8 counterexample: on a freshly constructed network, calling
`register_hooks` twice does NOT leave exactly one observer per layer --
`register_forward_hook` stacks, so every layer ends up with two. -/
theorem claim_C8_counterexample :
    ¬ (((netC8.register_hooks).register_hooks).fc_layers.all
        (fun l => l.hooks.length == 1) = true) := by decide

/-- C8 corrected: `register_hooks` is not idempotent on either variant; each
call attaches one additional observer per hidden-plus-output layer, so a
second call on a freshly constructed network leaves exactly two observers per
layer. -/
theorem claim_C8_amended :
    (∀ (net : FCNetwork), (∀ l ∈ net.fc_layers, l.hooks = []) →
      ∀ l ∈ ((net.register_hooks).register_hooks).fc_layers, l.hooks.length = 2) ∧
    (∀ (net : FCNetworkWithBatchNorm), (∀ l ∈ net.fc_layers, l.hooks = []) →
      ∀ l ∈ ((net.register_hooks).register_hooks).fc_layers, l.hooks.length = 2) := by
  constructor
  · intro net h l hl
    exact registerHooksAux_twice net.fc_layers 0 0 l h hl
  · intro net h l hl
    exact registerHooksAux_twice net.fc_layers 0 0 l h hl

def netC8b : FCNetworkWithBatchNorm :=
  mkFCNetworkWithBatchNorm 1 1 [] "relu" 0 "runs/activations_with_batchnorm"
    (fun _ _ _ => 0) (fun _ _ => 0) [] []

theorem claim_C8_witness :
    ((∀ l ∈ netC8.fc_layers, l.hooks = []) ∧
      (∀ l ∈ netC8b.fc_layers, l.hooks = [])) ∧
    (∀ l ∈ ((netC8.register_hooks).register_hooks).fc_layers, l.hooks.length = 2) ∧
    (∀ l ∈ ((netC8b.register_hooks).register_hooks).fc_layers, l.hooks.length = 2) :=
  ⟨⟨by decide, by decide⟩,
    claim_C8_amended.1 netC8 (by decide), claim_C8_amended.2 netC8b (by decide)⟩

/-- C9: any nonlinearity argument other than the exact string "relu" --
"sigmoid", the empty string, anything -- is silently resolved to the tanh
callable by both constructors; neither constructor can raise a configuration
error for an unsupported name. -/
theorem claim_C9 (s : String) (hs : s ≠ "relu") (obs act : Nat)
    (hidden : List Nat) (i1 i2 o1 o2 : Option Vec) (log_dir : String)
    (w : Nat → Nat → Nat → ℚ) (b : Nat → Nat → ℚ) (p : ℚ)
    (args : List Vec) (kwargs : List (String × Vec)) :
    resolveNonlinearity s = Activation.tanh ∧
    (mkFCNetwork obs act hidden s i1 i2 o1 o2 log_dir w b).nonlinearity =
      Activation.tanh ∧
    (mkFCNetworkWithBatchNorm obs act hidden s p log_dir w b args kwargs).nonlinearity =
      Activation.tanh := by
  have h : resolveNonlinearity s = Activation.tanh := by
    rw [resolveNonlinearity, if_neg hs]
  exact ⟨h, h, h⟩

theorem claim_C9_witness :
    ("sigmoid" ≠ "relu") ∧
    (resolveNonlinearity "sigmoid" = Activation.tanh ∧
      (mkFCNetwork 1 1 [] "sigmoid" none none none none "runs/activations"
        (fun _ _ _ => 0) (fun _ _ => 0)).nonlinearity = Activation.tanh ∧
      (mkFCNetworkWithBatchNorm 1 1 [] "sigmoid" 0
        "runs/activations_with_batchnorm" (fun _ _ _ => 0) (fun _ _ => 0)
        [] []).nonlinearity = Activation.tanh) :=
  ⟨by decide, claim_C9 "sigmoid" (by decide) 1 1 [] none none none none
    "runs/activations" (fun _ _ _ => 0) (fun _ _ => 0) 0 [] []⟩

/-- C10: the batch-norm constructor accepts and silently ignores arbitrary
extra positional and keyword arguments (in particular `in_shift`, `in_scale`,
`out_shift`, `out_scale` keyword arguments): the resulting network is
identical to one constructed without them, so its forward output is too; and
this variant's `set_transformations` is a no-op. -/
theorem claim_C10 (T : Torch) (obs act : Nat) (hidden : List Nat) (nl : String)
    (p : ℚ) (log_dir : String) (w : Nat → Nat → Nat → ℚ) (b : Nat → Nat → ℚ)
    (args : List Vec) (kwargs : List (String × Vec)) (x : TMat)
    (net : FCNetworkWithBatchNorm) (args' : List Vec)
    (kwargs' : List (String × Vec)) :
    mkFCNetworkWithBatchNorm obs act hidden nl p log_dir w b args kwargs =
      mkFCNetworkWithBatchNorm obs act hidden nl p log_dir w b [] [] ∧
    (mkFCNetworkWithBatchNorm obs act hidden nl p log_dir w b args kwargs).forward
        T x =
      (mkFCNetworkWithBatchNorm obs act hidden nl p log_dir w b [] []).forward T x ∧
    net.set_transformations args' kwargs' = net :=
  ⟨rfl, rfl, rfl⟩

/-- Python exceptions raised by `DataLog.shrink_to`: the `AssertionError` of
the length check and the `ValueError` that `min()`/`max()` raise on an empty
sequence. -/
inductive PyErr
  | assertionError
  | valueError
deriving DecidableEq

/-- Errors raised by `DataLog.read_log`: the explicit `RuntimeError` on an
iteration/row-position mismatch, and the `IndexError` from
`data['iteration'][-1]` when the iteration series is empty. -/
inductive ReadErr
  | iterationMismatch (row : Nat)
  | indexError
deriving DecidableEq

/-- The `DataLog` state relevant to the claims: the key-to-series mapping (an
insertion-ordered dict with unique keys), the `max_len` high-water mark and
the step counter.  Series entries are the scalars produced by `eval`. -/
structure DataLog where
  log : List (String × List ℚ)
  max_len : Nat
  global_step : Nat
deriving DecidableEq

/-- `data[key].append(v)` on the first matching key; appending to a missing
key leaves the dict unchanged (unreached in `read_log`, which initializes
every key first). -/
def appendAssoc : List (String × List ℚ) → String → ℚ → List (String × List ℚ)
  | [], _, _ => []
  | (k', l) :: rest, k, v =>
    if k' = k then (k', l ++ [v]) :: rest else (k', l) :: appendAssoc rest k v

/-- The inner loop of `read_log`:
`for key in keys: try: data[key].append(eval(row_dict[key])) except: print(...)`.
`ev` is the Python `eval` of a cell string (`none` = the eval raised, which is
caught; the printed diagnostic is unmodeled I/O); `i` indexes the current
key's cell inside the row. -/
def processKeys (ev : String → Option ℚ) (r : List String) :
    List String → Nat → List (String × List ℚ) → List (String × List ℚ)
  | [], _, data => data
  | k :: ks, i, data =>
    processKeys ev r ks (i + 1)
      (match ev (r.getD i "") with
       | some v => appendAssoc data k v
       | none => data)

/-- The outer loop of `read_log`: for each row restore every field, then check
the iteration column -- `data['iteration'][-1] != row` raises `RuntimeError`,
and `[-1]` on an empty series raises `IndexError`. -/
def readRows (ev : String → Option ℚ) (keys : List String) :
    List (List String) → Nat → List (String × List ℚ) →
      Except ReadErr (List (String × List ℚ))
  | [], _, data => Except.ok data
  | r :: rs, row, data =>
    match List.lookup "iteration" (processKeys ev r keys 0 data) with
    | none => readRows ev keys rs (row + 1) (processKeys ev r keys 0 data)
    | some l =>
      match l.getLast? with
      | none => Except.error ReadErr.indexError
      | some v =>
        if v = (row : ℚ) then readRows ev keys rs (row + 1) (processKeys ev r keys 0 data)
        else Except.error (ReadErr.iterationMismatch row)

/-- Lines 83-105 of `logger.py`: `DataLog.read_log` over a parsed CSV table
(`keys` = `reader.fieldnames`, assumed duplicate-free as in a Python dict;
`rows` = the cell strings of each data row, in key order). -/
def DataLog.read_log (ev : String → Option ℚ) (dl : DataLog)
    (keys : List String) (rows : List (List String)) : Except ReadErr DataLog :=
  (readRows ev keys rows 0 (keys.map (fun k => (k, [])))).map
    (fun data =>
      { dl with
        log := data,
        max_len := data.foldl (fun m kv => max m kv.2.length) 0 })

/-- Lines 70-76 of `logger.py`: truncate every series to its first
`num_entries` values, set `max_len`, then
`assert min([len(s) ...]) == max([len(s) ...])` over the truncated series
(`min`/`max` of an empty sequence raise `ValueError`).  In Python the
truncation has already mutated the object when the assertion raises; the
claims only concern when it raises. -/
def DataLog.shrink_to (dl : DataLog) (num_entries : Nat) : Except PyErr DataLog :=
  let truncated := dl.log.map (fun kv => (kv.1, kv.2.take num_entries))
  match truncated.map (fun kv => kv.2.length) with
  | [] => Except.error PyErr.valueError
  | x :: xs =>
    if xs.foldl min x = xs.foldl max x then
      Except.ok { dl with log := truncated, max_len := num_entries }
    else Except.error PyErr.assertionError

theorem foldl_min_le_init (xs : List Nat) : ∀ x, xs.foldl min x ≤ x := by
  induction xs with
  | nil => intro x; exact le_refl x
  | cons a t ih => intro x; exact le_trans (ih (min x a)) (min_le_left x a)

theorem foldl_min_le_mem (xs : List Nat) : ∀ x y, y ∈ xs → xs.foldl min x ≤ y := by
  induction xs with
  | nil => intro x y hy; simp at hy
  | cons a t ih =>
    intro x y hy
    rcases List.mem_cons.mp hy with rfl | hy2
    · exact le_trans (foldl_min_le_init t (min x y)) (min_le_right x y)
    · exact ih (min x a) y hy2

theorem le_foldl_max_init (xs : List Nat) : ∀ x, x ≤ xs.foldl max x := by
  induction xs with
  | nil => intro x; exact le_refl x
  | cons a t ih => intro x; exact le_trans (le_max_left x a) (ih (max x a))

theorem le_foldl_max_mem (xs : List Nat) : ∀ x y, y ∈ xs → y ≤ xs.foldl max x := by
  induction xs with
  | nil => intro x y hy; simp at hy
  | cons a t ih =>
    intro x y hy
    rcases List.mem_cons.mp hy with rfl | hy2
    · exact le_trans (le_max_right x y) (le_foldl_max_init t (max x y))
    · exact ih (max x a) y hy2

theorem foldl_min_const (xs : List Nat) : ∀ x, (∀ y ∈ xs, y = x) →
    xs.foldl min x = x := by
  induction xs with
  | nil => intro x _; rfl
  | cons a t ih =>
    intro x h
    have ha : a = x := h a (List.mem_cons_self a t)
    rw [List.foldl_cons, ha, min_self]
    exact ih x (fun y hy => h y (List.mem_cons_of_mem a hy))

theorem foldl_max_const (xs : List Nat) : ∀ x, (∀ y ∈ xs, y = x) →
    xs.foldl max x = x := by
  induction xs with
  | nil => intro x _; rfl
  | cons a t ih =>
    intro x h
    have ha : a = x := h a (List.mem_cons_self a t)
    rw [List.foldl_cons, ha, max_self]
    exact ih x (fun y hy => h y (List.mem_cons_of_mem a hy))

theorem foldl_min_eq_max_iff (x : Nat) (xs : List Nat) :
    xs.foldl min x = xs.foldl max x ↔ ∀ y ∈ xs, y = x := by
  constructor
  · intro h y hy
    have h1 := foldl_min_le_mem xs x y hy
    have h2 := le_foldl_max_mem xs x y hy
    have h3 := foldl_min_le_init xs x
    have h4 := le_foldl_max_init xs x
    omega
  · intro h
    rw [foldl_min_const xs x h, foldl_max_const xs x h]

theorem shrink_to_nil (maxlen step n : Nat) :
    (DataLog.mk [] maxlen step).shrink_to n = Except.error PyErr.valueError := rfl

theorem shrink_to_cons (kv : String × List ℚ) (rest : List (String × List ℚ))
    (maxlen step n : Nat) :
    (DataLog.mk (kv :: rest) maxlen step).shrink_to n =
      (if (rest.map (fun p => (p.2.take n).length)).foldl min (kv.2.take n).length =
          (rest.map (fun p => (p.2.take n).length)).foldl max (kv.2.take n).length
      then Except.ok
        (DataLog.mk ((kv :: rest).map (fun p => (p.1, p.2.take n))) n step)
      else Except.error PyErr.assertionError) := by
  rw [DataLog.shrink_to]
  simp only [List.map_cons, List.map_map]
  rfl

/-- C7 counterexample: with series lengths 3 and 5 -- already diverged before
the call -- `shrink_to 2` truncates both series to length 2 and the assertion
passes, so the claim "the assertion fails whenever the series lengths already
diverged before the call" is false at this input. -/
theorem claim_C7_counterexample :
    ((DataLog.mk [("a", [1, 2, 3]), ("b", [1, 2, 3, 4, 5])] 5 0).log.map
        (fun p => p.2.length) = [3, 5]) ∧
    (DataLog.mk [("a", [1, 2, 3]), ("b", [1, 2, 3, 4, 5])] 5 0).shrink_to 2 =
      Except.ok (DataLog.mk [("a", [1, 2]), ("b", [1, 2])] 2 0) :=
  ⟨rfl, rfl⟩

/-- C7 corrected: `shrink_to(n)` truncates every series to its first n entries
and asserts that the TRUNCATED series all have equal length; the assertion
fails exactly when the truncated lengths still diverge -- divergence among
series that all have at least n entries is masked by the truncation. -/
theorem claim_C7_amended (dl : DataLog) (n : Nat) :
    (∀ dl', dl.shrink_to n = Except.ok dl' →
      dl' = { dl with
        log := dl.log.map (fun kv => (kv.1, kv.2.take n)), max_len := n }) ∧
    (dl.shrink_to n = Except.error PyErr.assertionError ↔
      ∃ p ∈ dl.log, ∃ q ∈ dl.log, (p.2.take n).length ≠ (q.2.take n).length) := by
  obtain ⟨log, maxlen, step⟩ := dl
  cases log with
  | nil =>
    constructor
    · intro dl' h
      rw [shrink_to_nil] at h
      exact absurd h (by simp)
    · constructor
      · intro h
        rw [shrink_to_nil] at h
        exact absurd h (by simp)
      · rintro ⟨p, hp, -⟩
        simp at hp
  | cons kv rest =>
    constructor
    · intro dl' h
      rw [shrink_to_cons] at h
      by_cases hc : (rest.map (fun p => (p.2.take n).length)).foldl min
          (kv.2.take n).length =
          (rest.map (fun p => (p.2.take n).length)).foldl max (kv.2.take n).length
      · rw [if_pos hc] at h
        injection h with h
        rw [← h]
      · rw [if_neg hc] at h
        exact absurd h (by simp)
    · rw [shrink_to_cons]
      constructor
      · intro h
        by_cases hc : (rest.map (fun p => (p.2.take n).length)).foldl min
            (kv.2.take n).length =
            (rest.map (fun p => (p.2.take n).length)).foldl max (kv.2.take n).length
        · rw [if_pos hc] at h
          exact absurd h (by simp)
        · have hnall : ¬ ∀ y ∈ rest.map (fun p => (p.2.take n).length),
              y = (kv.2.take n).length :=
            fun hall => hc ((foldl_min_eq_max_iff _ _).mpr hall)
          push_neg at hnall
          obtain ⟨y, hy, hyne⟩ := hnall
          obtain ⟨q, hq, rfl⟩ := List.mem_map.mp hy
          exact ⟨q, List.mem_cons_of_mem kv hq, kv, List.mem_cons_self kv rest, hyne⟩
      · rintro ⟨p, hp, q, hq, hne⟩
        have hcneg : ¬ ((rest.map (fun p => (p.2.take n).length)).foldl min
            (kv.2.take n).length =
            (rest.map (fun p => (p.2.take n).length)).foldl max (kv.2.take n).length) := by
          intro hc
          have hall := (foldl_min_eq_max_iff _ _).mp hc
          have key : ∀ z ∈ kv :: rest,
              ((z : String × List ℚ).2.take n).length = (kv.2.take n).length := by
            intro z hz
            rcases List.mem_cons.mp hz with rfl | hz2
            · rfl
            · exact hall _ (List.mem_map.mpr ⟨z, hz2, rfl⟩)
          exact hne ((key p hp).trans (key q hq).symm)
        rw [if_neg hcneg]

theorem claim_C7_witness :
    DataLog.mk [("r", [(7 : ℚ)])] 1 0 =
      { DataLog.mk [("r", [(7 : ℚ), 8])] 2 0 with
        log := (DataLog.mk [("r", [(7 : ℚ), 8])] 2 0).log.map
          (fun kv => (kv.1, kv.2.take 1)),
        max_len := 1 } :=
  (claim_C7_amended (DataLog.mk [("r", [(7 : ℚ), 8])] 2 0) 1).1
    (DataLog.mk [("r", [(7 : ℚ)])] 1 0) rfl

theorem readRows_mismatch (ev : String → Option ℚ) (keys : List String)
    (r : List String) (rs : List (List String)) (row : Nat)
    (data : List (String × List ℚ)) (l : List ℚ) (v : ℚ)
    (h1 : List.lookup "iteration" (processKeys ev r keys 0 data) = some l)
    (h2 : l.getLast? = some v) (h3 : v ≠ (row : ℚ)) :
    readRows ev keys (r :: rs) row data =
      Except.error (ReadErr.iterationMismatch row) := by
  rw [readRows]
  simp only [h1, h2]
  rw [if_neg h3]

/-- C6: during `read_log`, a malformed scalar field (one whose `eval` raises)
is non-fatal: that field is skipped and the remaining fields of the row are
restored (first conjunct, the step semantics of the field loop); whereas a row
whose restored iteration value disagrees with the physical row position makes
`readRows` -- and `read_log` as a whole -- abort with the hard
`RuntimeError`, with no partial recovery (second and third conjuncts). -/
theorem claim_C6 :
    (∀ (ev : String → Option ℚ) (r : List String) (k : String)
        (ks : List String) (i : Nat) (data : List (String × List ℚ)),
      ev (r.getD i "") = none →
      processKeys ev r (k :: ks) i data = processKeys ev r ks (i + 1) data) ∧
    (∀ (ev : String → Option ℚ) (keys : List String) (r : List String)
        (rs : List (List String)) (row : Nat) (data : List (String × List ℚ))
        (l : List ℚ) (v : ℚ),
      List.lookup "iteration" (processKeys ev r keys 0 data) = some l →
      l.getLast? = some v → v ≠ (row : ℚ) →
      readRows ev keys (r :: rs) row data =
        Except.error (ReadErr.iterationMismatch row)) ∧
    (∀ (ev : String → Option ℚ) (dl : DataLog) (keys : List String)
        (r : List String) (rs : List (List String)) (l : List ℚ) (v : ℚ),
      List.lookup "iteration"
        (processKeys ev r keys 0 (keys.map (fun k => (k, [])))) = some l →
      l.getLast? = some v → v ≠ (0 : ℚ) →
      dl.read_log ev keys (r :: rs) = Except.error (ReadErr.iterationMismatch 0)) := by
  refine ⟨?_, ?_, ?_⟩
  · intro ev r k ks i data h
    rw [processKeys]
    simp only [h]
  · intro ev keys r rs row data l v h1 h2 h3
    exact readRows_mismatch ev keys r rs row data l v h1 h2 h3
  · intro ev dl keys r rs l v h1 h2 h3
    rw [DataLog.read_log, readRows_mismatch ev keys r rs 0 _ l v h1 h2 h3]
    rfl

def evC6 : String → Option ℚ :=
  fun s => if s = "0" then some 0 else if s = "7" then some 7 else none

theorem claim_C6_witness :
    (evC6 "bad" = none ∧
      processKeys evC6 ["bad"] ["a"] 0 [("a", [])] =
        processKeys evC6 ["bad"] [] 1 [("a", [])]) ∧
    (List.lookup "iteration"
        (processKeys evC6 ["7"] ["iteration"] 0 [("iteration", [])]) =
          some [7] ∧
      [(7 : ℚ)].getLast? = some 7 ∧ (7 : ℚ) ≠ 0 ∧
      readRows evC6 ["iteration"] [["7"]] 0 [("iteration", [])] =
        Except.error (ReadErr.iterationMismatch 0)) ∧
    (DataLog.mk [] 0 0).read_log evC6 ["iteration"] [["7"]] =
      Except.error (ReadErr.iterationMismatch 0) :=
  ⟨⟨rfl, claim_C6.1 evC6 ["bad"] "a" [] 0 [("a", [])] rfl⟩,
    ⟨rfl, rfl, by norm_num,
      claim_C6.2.1 evC6 ["iteration"] ["7"] [] 0 [("iteration", [])] [7] 7 rfl
        rfl (by norm_num)⟩,
    claim_C6.2.2 evC6 (DataLog.mk [] 0 0) ["iteration"] ["7"] [] [7] 7 rfl rfl
      (by norm_num)⟩
